import Mathlib

/-!
Verification of the rule-system and grammar engines of the
Murder-Mystery-at-the-Railroad-Station repository.

The definitions below are a shallow embedding of the Python source:

* `src/rule_system/rules.py` — `Rule`, `Role`, `Predicate`, `OrExpression`,
  `TernaryExpression`, `ResponseAction`;
* `src/rule_system/entity.py` — `Entity`;
* `src/rule_system/engine.py` — `RuleEngine`, `WorkingMemory`, `Action`;
* `src/rule_system/compiler.py` — the parts of `Compiler` that the claims
  touch (`_parse_role_definition`, `_parse_condition_definition`, and the
  probability handling of `_parse_rule_definition`);
* `src/grammar/engine.py` — `GrammarEngine.generate`,
  `GrammarEngine._render_surface_form`, and the `initial_state` handling of
  `GrammarEngine.__init__`.

Modeling conventions:

* Python exceptions are modeled with `Option`/`Except`: a `none`/`.error`
  result is a raised exception.  Python `random.random()` / `random.choice`
  draws are supplied by oracle streams (`ℕ → ℚ`, `ℕ → ℕ`); the engines are
  modeled with `shuffle_randomly=False` (a constructor flag of the source).
* Python dicts are insertion-ordered association lists with unique keys,
  Python sets are duplicate-free lists (only membership is ever consumed).
* Python object identity is modeled by value equality; this is exact for all
  states in which no two entities carry the same name and type.
* String helpers (`pySplitChar`, `pyStrip`, ...) re-implement the exact
  Python `str` operations used by the source with structural recursion so
  that every definition evaluates inside the kernel.
* Python floats (rule probabilities, `random.random()` draws) are modeled
  as rationals; the comparisons the source performs are order comparisons,
  which ℚ models exactly for the decimal literals involved.
-/

namespace Mystery

/-! ### Python string primitives (re-implemented over `List Char`) -/

/-- Characters Python `str.strip()` removes. -/
def pyIsSpace (c : Char) : Bool :=
  c = ' ' || c = '\t' || c = '\n' || c = '\r' || c = '\x0b' || c = '\x0c'

/-- Python `str.strip()`. -/
def pyStrip (s : String) : String :=
  String.mk (((s.data.dropWhile pyIsSpace).reverse.dropWhile pyIsSpace).reverse)

/-- Python `str.lstrip(chars)`. -/
def pyLstripChars (chars : List Char) (s : String) : String :=
  String.mk (s.data.dropWhile (chars.contains ·))

/-- Python `str.rstrip(chars)`. -/
def pyRstripChars (chars : List Char) (s : String) : String :=
  String.mk ((s.data.reverse.dropWhile (chars.contains ·)).reverse)

/-- Python `str.split(c)` for a single-character separator (all separators the
modeled source splits on are single characters). -/
def pySplitChar (c : Char) : List Char → List (List Char)
  | [] => [[]]
  | x :: xs =>
    let rest := pySplitChar c xs
    if x = c then [] :: rest
    else
      match rest with
      | [] => [[x]]
      | r :: rs => (x :: r) :: rs

/-- Python `s.split(c)` returning strings. -/
def pySplitOnChar (c : Char) (s : String) : List String :=
  (pySplitChar c s.data).map String.mk

/-- Python `str.split()` with no argument: split on whitespace runs,
dropping empty pieces. -/
def pySplitWs (s : String) : List String :=
  ((pySplitChar ' ' s.data).filter (· ≠ [])).map String.mk

/-- Python `str.startswith`. -/
def pyStartsWith (s pre : String) : Bool :=
  pre.data.isPrefixOf s.data

/-- Python `s[1:]`. -/
def pyDropFirst (s : String) : String := String.mk (s.data.drop 1)

/-- Python `s[:-1]`. -/
def pyDropLast (s : String) : String := String.mk s.data.dropLast

/-- Python `s[1:-1]` (used on resolved action strings and on marker words). -/
def pyInner (s : String) : String := String.mk (s.data.drop 1).dropLast

/-- Python `c in s` (single-character containment). -/
def pyContainsChar (s : String) (c : Char) : Bool := s.data.contains c

/-- Python `s.count(c)` for a single character. -/
def pyCountChar (s : String) (c : Char) : ℕ := List.count c s.data

/-- Python `needle in hay` for strings: substring containment. -/
def pyContainsSub (hay needle : String) : Bool :=
  go hay.data
where
  go : List Char → Bool
    | [] => needle.data.isPrefixOf []
    | l@(_ :: rest) => needle.data.isPrefixOf l || go rest

/-- Python `' '.join(pieces)`. -/
def pyJoinSpace (pieces : List String) : String :=
  String.mk (List.intercalate [' '] (pieces.map String.data))

/-- Decimal digit value of a character, if it is a digit. -/
def digitOfChar? (c : Char) : Option ℕ :=
  let n := c.toNat
  if 48 ≤ n && n ≤ 57 then some (n - 48) else none

/-- Parse a nonempty all-digit character list as a natural number. -/
def natOfDigits? : List Char → Option ℕ
  | [] => none
  | l => go l 0
where
  go : List Char → ℕ → Option ℕ
    | [], acc => some acc
    | c :: cs, acc =>
      match digitOfChar? c with
      | none => none
      | some d => go cs (acc * 10 + d)

/-- Model of Python `float(s)` restricted to the unsigned decimal literals
rule authors write in `prob:` sections (`"0.5"`, `"1"`, ...); other inputs
are a `ValueError` (`none`).  The claims never evaluate this function. -/
def pyParseFloat (s : String) : Option ℚ :=
  match pySplitOnChar '.' s with
  | [a] => (natOfDigits? a.data).map (fun n => (n : ℚ))
  | [a, b] =>
    match natOfDigits? a.data, natOfDigits? b.data with
    | some x, some y => some ((x : ℚ) + (y : ℚ) / (10 : ℚ) ^ b.data.length)
    | _, _ => none
  | _ => none

/-! ### Generic dict / association-list helpers -/

/-- Python `d[k].append(a)` with a `KeyError` fallback that creates the key
(insertion order: a new key goes to the end). -/
def assocAppend [BEq κ] : List (κ × List α) → κ → α → List (κ × List α)
  | [], k, a => [(k, [a])]
  | (k2, as) :: rest, k, a =>
    if k2 == k then (k2, as ++ [a]) :: rest else (k2, as) :: assocAppend rest k a

/-- Python `d[k].remove(a)` (first occurrence); a missing key or element is
modeled as a no-op (the source only deletes facts it has indexed). -/
def assocErase [BEq κ] [BEq α] : List (κ × List α) → κ → α → List (κ × List α)
  | [], _, _ => []
  | (k2, as) :: rest, k, a =>
    if k2 == k then (k2, as.erase a) :: rest else (k2, as) :: assocErase rest k a

/-- Python `d[k] = v` on an insertion-ordered dict. -/
def dictInsert [BEq κ] (d : List (κ × α)) (k : κ) (v : α) : List (κ × α) :=
  if d.any (fun p => p.1 == k) then
    d.map (fun p => if p.1 == k then (p.1, v) else p)
  else d ++ [(k, v)]

/-! ### Data model (`rules.py`, `entity.py`) -/

/-- An entity in a domain (`entity.py`). -/
structure Entity where
  name : String
  type : String
  attributes : List (String × String) := []
deriving DecidableEq, Repr

/-- A role in an action (`rules.py`, class `Role`).  The source stores the
constructor arguments `optional` and `entity_name_recipe` (the latter
defaulting to `False`, modeled as `none`) and derives the rest. -/
structure Role where
  name : String
  entityType : String
  optional : Bool := false
  entityNameRecipe : Option String := none
deriving DecidableEq, Repr

/-- Source: `self.action_self_reference = name == 'This'`. -/
def Role.actionSelfReference (r : Role) : Bool := r.name == "This"

/-- Python truthiness of the `entity_name_recipe` attribute (`False` and the
empty string are falsy). -/
def Role.hasRecipe (r : Role) : Bool :=
  match r.entityNameRecipe with
  | none => false
  | some s => !(s == "")

/-- Source: `self.required = (not optional) and not self.action_self_reference
and not entity_name_recipe`. -/
def Role.required (r : Role) : Bool :=
  !r.optional && !r.actionSelfReference && !r.hasRecipe

/-- An element of a predicate template: a literal token or a role reference
(the compiler interns the `Role` object itself into the template). -/
inductive TemplateElem
  | lit (s : String)
  | role (r : Role)
deriving DecidableEq, Repr

/-- A predicate (`rules.py`, class `Predicate`): a template plus a negation
flag. -/
structure Pred where
  template : List TemplateElem
  negated : Bool
deriving DecidableEq, Repr

/-- Source: `self.required_roles = {element for element in self.template if
type(element) is Role and element.required}` (a set; modeled as a
duplicate-free list). -/
def Pred.requiredRoles (p : Pred) : List Role :=
  ((p.template.filterMap fun e =>
      match e with
      | .lit _ => none
      | .role r => some r).filter Role.required).dedup

/-- Source: the `optional_roles` flag set by scanning the template for a role
that is neither required nor the action self-reference. -/
def Pred.hasOptionalRoles (p : Pred) : Bool :=
  p.template.any fun e =>
    match e with
    | .lit _ => false
    | .role r => !r.required && !r.actionSelfReference

/-- A condition (`§9 of the spec`): a predicate or an OR-expression.  The
compiler only ever builds `OrExpression` objects over plain predicates, and
`OrExpression.__init__` hard-codes `self.negated = False`; the `negated`
field is kept because `WorkingMemory.holds` reads it. -/
inductive Condition
  | pred (p : Pred)
  | orExpr (conditions : List Pred) (negated : Bool)
deriving DecidableEq, Repr

/-- Required-role set of a condition (`OrExpression` takes the union over its
disjuncts). -/
def Condition.requiredRoles : Condition → List Role
  | .pred p => p.requiredRoles
  | .orExpr conds _ => (conds.flatMap Pred.requiredRoles).dedup

/-- Optional-role flag of a condition (`OrExpression` scans every disjunct's
template). -/
def Condition.hasOptionalRoles : Condition → Bool
  | .pred p => p.hasOptionalRoles
  | .orExpr conds _ => conds.any Pred.hasOptionalRoles

/-- An effect: a predicate, or a ternary expression whose branches are
predicates or `()` no-ops (`rules.py`, class `TernaryExpression`; the parser
produces `None` for a `()` branch, modeled as `none`). -/
inductive Effect
  | pred (p : Pred)
  | ternary (cond : Condition) (ifTrue ifFalse : Option Pred)
deriving DecidableEq, Repr

/-- A response-action directive (`rules.py`, class `ResponseAction`): the
target action name and the target-role ↦ source-role bindings. -/
structure ResponseAction where
  actionName : String
  actionBindings : List (String × String)
deriving DecidableEq, Repr

/-- A rule (`rules.py`, class `Rule`).  `raw_definition` and `debug` are
logging-only and omitted. -/
structure Rule where
  actionName : String
  isResponseAction : Bool := false
  actionString : String
  probability : ℚ := 1
  roles : List Role := []
  preconditions : List Condition := []
  effects : List Effect := []
  responseActions : List ResponseAction := []
deriving DecidableEq, Repr

/-- An action record (`engine.py`, class `Action`). -/
structure ActionRec where
  name : String
  string : String
  bindings : List (String × Entity)
deriving DecidableEq, Repr

/-- Role-name ↦ entity bindings (a Python dict). -/
abbrev Bindings := List (String × Entity)

/-! ### Working memory (`engine.py`, class `WorkingMemory`) -/

/-- The working memory: the fact set (a Python `set`, modeled as a
duplicate-free list) and the first-character index
(`_facts_by_first_character`, a dict of mutable lists that facts are
appended to). -/
structure WorkingMemory where
  facts : List String
  index : List (Char × List String)
deriving DecidableEq, Repr

/-- The grounding of each template element in order: a literal stands for
itself and a role reference stands for the bound entity's name; a
reference to an unbound role raises `KeyError` (`none`), aborting the
whole grounding. -/
def groundParts (b : Bindings) : List TemplateElem → Option (List String)
  | [] => some []
  | e :: rest => do
    let v ← match e with
      | .lit s => some s
      | .role r => (b.lookup r.name).map Entity.name
    let vs ← groundParts b rest
    some (v :: vs)

/-- Source (`Predicate.ground` and the grounding generator in
`WorkingMemory.add`): join the template elements with single spaces,
substituting each role's bound entity name. -/
def groundOpt (template : List TemplateElem) (b : Bindings) : Option String :=
  (groundParts b template).map pyJoinSpace

/-- Source: `_facts_starting_with` (a missing bucket yields `[]`). -/
def WorkingMemory.factsStartingWith (wm : WorkingMemory) (c : Char) : List String :=
  (wm.index.lookup c).getD []

/-- Whether a pattern character matches a text character in the regex model:
`.` matches anything (`re` dot), all other characters literally.  Ground
expressions only contain `*`, `.` and literal fact characters. -/
def reCharMatch (p c : Char) : Bool := p = '.' || p = c

/-- Anchored prefix regex matching in the fragment Python `re.match` is
applied to by `WorkingMemory.holds`: literal characters, `.`, and `x*`
(zero or more repetitions of the preceding character). -/
def reMatch : List Char → List Char → Bool
  | [], _ => true
  | p :: '*' :: ps, t =>
    reMatch ps t ||
      (match t with
       | [] => false
       | c :: cs => reCharMatch p c && reMatch (p :: '*' :: ps) cs)
  | p :: ps, c :: cs => reCharMatch p c && reMatch ps cs
  | _ :: _, [] => false
termination_by pat t => (t.length, pat.length)

/-- Source: the plain-predicate branch of `WorkingMemory.holds`: ground,
probe the index bucket of the first character (or the whole fact set for a
leading `*`), regex-match when the grounding contains `*`, and apply the
negation flag.  An empty grounding raises `IndexError` (`none`). -/
def predHolds (wm : WorkingMemory) (b : Bindings) (p : Pred) : Option Bool := do
  let g ← groundOpt p.template b
  match g.data with
  | [] => none
  | c0 :: _ =>
    let pool := if c0 = '*' then wm.facts else wm.factsStartingWith c0
    let pat : Option (List Char) :=
      if pyContainsChar g '*' then some (if c0 = '*' then '.' :: g.data else g.data)
      else none
    let isMatch : String → Bool := fun f =>
      match pat with
      | some pcs => reMatch pcs f.data
      | none => g == f
    some (if pool.any isMatch then !p.negated else p.negated)

/-- Source: the OR-expression loop of `WorkingMemory.holds`: return at the
first holding disjunct (inverting under the expression's negation flag),
otherwise fall through to the negation flag. -/
def orHolds (wm : WorkingMemory) (b : Bindings) (negated : Bool) : List Pred → Option Bool
  | [] => some negated
  | p :: rest =>
    match predHolds wm b p with
    | none => none
    | some true => some (!negated)
    | some false => orHolds wm b negated rest

/-- Source: `WorkingMemory.holds`. -/
def condHolds (wm : WorkingMemory) (b : Bindings) : Condition → Option Bool
  | .pred p => predHolds wm b p
  | .orExpr conds negated => orHolds wm b negated conds

/-- Source: `WorkingMemory.add`: ground the predicate (a `KeyError` from an
unbound optional role silently returns), skip whitespace-only groundings,
then add to the fact set and append to the first-character index bucket
(the source appends without a membership check). -/
def WorkingMemory.add (wm : WorkingMemory) (template : List TemplateElem) (b : Bindings) :
    WorkingMemory :=
  match groundOpt template b with
  | none => wm
  | some fact =>
    if pyStrip fact = "" then wm
    else
      { facts := if fact ∈ wm.facts then wm.facts else wm.facts ++ [fact],
        index := assocAppend wm.index (fact.data.headD ' ') fact }

/-- Source: `WorkingMemory.delete`: ground (a `KeyError` propagates, `none`),
then remove the exact matching fact from the set and its index bucket if
present. -/
def WorkingMemory.delete (wm : WorkingMemory) (template : List TemplateElem) (b : Bindings) :
    Option WorkingMemory := do
  let g ← groundOpt template b
  if g ∈ wm.facts then
    some { facts := wm.facts.erase g, index := assocErase wm.index (g.data.headD ' ') g }
  else some wm

/-- Source: `WorkingMemory.has_fact`. -/
def WorkingMemory.hasFact (wm : WorkingMemory) (fact : String) : Bool :=
  wm.facts.contains fact

/-! ### Rule compiler (`compiler.py`) -/

/-- Source: `Compiler._parse_role_definition`.  Note the faithful modeling of
the reserved-role check: the source computes the `error_message` for a role
named `This` but never raises it, so the definition is accepted; the
commented-out error below marks the spot.  A `split` that does not produce
exactly two pieces raises `ValueError`. -/
def parseRoleDefinition (roleDefinition : String) : Except String Role :=
  let rd := pyStrip roleDefinition
  if pyStartsWith rd "+" then
    match pySplitOnChar '=' (pyDropFirst rd) with
    | [roleName, entityNameAndType] =>
      match pySplitOnChar ':' entityNameAndType with
      | [entityNameRecipe, entityType] =>
        .ok { name := roleName, entityType := entityType,
              entityNameRecipe := some entityNameRecipe }
      | _ => .error "ValueError: unpacking split on colon"
    | _ => .error "ValueError: unpacking split on equals"
  else
    match pySplitOnChar ':' rd with
    | [rn, et] =>
      let roleIsOptional := pyStartsWith rn "?"
      let roleName := if roleIsOptional then pyDropFirst rn else rn
      -- Source lines 459-461: `if role_name == 'This':` assembles the message
      -- "The role name 'This' is reserved for action self-referencing. ..."
      -- into a local variable and falls through without raising it.
      .ok { name := roleName, entityType := pyStrip et, optional := roleIsOptional }
    | _ => .error "ValueError: unpacking split on colon"

/-- Source: the non-OR body of `Compiler._parse_condition_definition`: the
chained parenthesis check `count('(') != count(')') != 1`, the leading
`(`/`!(` check, negation from the first character, stripping of `!( ` and
` )`, and word-by-word template building (lowercase-initial words are
literals, capital-initial words must resolve to a declared role). -/
def parseSimpleCondition (conditionDefinition : String) (roles : List Role) :
    Except String Pred :=
  let cd := pyStrip conditionDefinition
  if (pyCountChar cd '(' ≠ pyCountChar cd ')') && (pyCountChar cd ')' ≠ 1) then
    .error "Missing/unbalanced parentheses"
  else if !(pyStartsWith cd "(") && !(pyStartsWith cd "!(") then
    .error "Precondition does not start with ( or !("
  else
    let negated := cd.data.headD ' ' = '!'
    let raw := pyRstripChars [' ', ')'] (pyLstripChars ['!', '(', ' '] cd)
    (buildTemplate (pySplitWs raw)).map fun template =>
      { template := template, negated := negated }
where
  buildTemplate : List String → Except String (List TemplateElem)
    | [] => .ok []
    | w :: ws =>
      let c := w.data.headD ' '
      if c.toLower = c then
        (buildTemplate ws).map (TemplateElem.lit w :: ·)
      else
        match roles.find? (fun r => r.name == w) with
        | some r => (buildTemplate ws).map (TemplateElem.role r :: ·)
        | none => .error "references a role that is not introduced in the roles"

/-- Source: `Compiler._parse_condition_definition`.  A definition containing
`/` is split on it and each piece is parsed by a recursive call; since the
pieces cannot contain `/`, the recursion always lands in the plain-predicate
branch, which `parseSimpleCondition` embeds (including its re-application of
the entry checks to each piece).  `OrExpression(conditions=...)` hard-codes
`negated = False`. -/
def parseConditionDefinition (conditionDefinition : String) (roles : List Role) :
    Except String Condition :=
  let cd := pyStrip conditionDefinition
  if (pyCountChar cd '(' ≠ pyCountChar cd ')') && (pyCountChar cd ')' ≠ 1) then
    .error "Missing/unbalanced parentheses"
  else if !(pyStartsWith cd "(") && !(pyStartsWith cd "!(") then
    .error "Precondition does not start with ( or !("
  else if pyContainsChar cd '/' then
    (((pySplitOnChar '/' cd).mapM fun piece =>
        parseSimpleCondition piece roles : Except String (List Pred))).map
      (Condition.orExpr · false)
  else
    (parseSimpleCondition cd roles).map Condition.pred

/-- Source: the probability thread of `Compiler._parse_rule_definition`.  The
`definition_components` are the pieces of
`re.split('(prob:|roles:|preconditions:|effects:|responses:)', body)`;
`rule_probability` starts at `1.0`, the `prob:` label arms a flag, and the
next non-blank non-label component is parsed with `float` (a `ValueError`
is fatal).  The parsing of the other sections has no effect on the
probability and is not modeled here. -/
def ruleProbabilityLoop (rp : ℚ) (parsingProbability : Bool) :
    List String → Except String ℚ
  | [] => .ok rp
  | comp :: rest =>
    if pyStrip comp = "" then ruleProbabilityLoop rp parsingProbability rest
    else if comp = "prob:" then ruleProbabilityLoop rp true rest
    else if comp = "roles:" then ruleProbabilityLoop rp parsingProbability rest
    else if comp = "preconditions:" then ruleProbabilityLoop rp parsingProbability rest
    else if comp = "effects:" then ruleProbabilityLoop rp parsingProbability rest
    else if comp = "responses:" then ruleProbabilityLoop rp parsingProbability rest
    else if parsingProbability then
      match pyParseFloat (pyStrip comp) with
      | none => .error "Malformed probability value"
      | some q => ruleProbabilityLoop q false rest
    else ruleProbabilityLoop rp parsingProbability rest

/-- The compiled probability of a rule whose definition body was split into
the given components. -/
def ruleProbabilityOfComponents (components : List String) : Except String ℚ :=
  ruleProbabilityLoop 1 false components

/-! ### Rule engine (`engine.py`, class `RuleEngine`) -/

/-- The type ↦ entity-list domain dict. -/
abbrev Domain := List (String × List Entity)

/-- The engine state: rules, domain, working memory, recorded actions, and
the oracle stream feeding `random.random()` with its consumption counter.
The model fixes `shuffle_randomly = False` (a constructor flag of the
source), so the rule order and candidate-pool order are the authored ones
and the only randomness is the probability draws. -/
structure EngineState where
  rules : List Rule
  domain : Domain
  workingMemory : WorkingMemory
  actions : List ActionRec
  draws : ℕ → ℚ
  drawIdx : ℕ

/-- Source: the `entities` property: all entities across the domain, in dict
insertion order. -/
def EngineState.entities (es : EngineState) : List Entity :=
  (es.domain.map Prod.snd).flatten

/-- All entity names across a domain. -/
def domainEntityNames (d : Domain) : List String :=
  ((d.map Prod.snd).flatten).map Entity.name

/-- The opening brace character (`{`). -/
def lbrace : Char := Char.ofNat 123

/-- The closing brace character (`}`). -/
def rbrace : Char := Char.ofNat 125

/-- Source: the f-string interpolation performed by `_spawn_action` and
`_bind_entity_creation_role`: each brace-delimited role reference is
replaced by the bound entity's name.  The source first backslash-escapes
quotes in entity names and then `eval`s an f-string, which round-trips to
plain substitution for names without backslashes; an unbound reference
raises `NameError` and an unterminated or stray brace is an f-string
syntax error (all `none`).  `mode` is `some acc` while scanning inside a
brace-delimited reference, accumulating its name. -/
def interpolateGo (b : Bindings) (mode : Option (List Char)) :
    List Char → Option (List Char)
  | [] =>
    match mode with
    | none => some []
    | some _ => none
  | c :: cs =>
    match mode with
    | none =>
      if c = lbrace then interpolateGo b (some []) cs
      else if c = rbrace then none
      else (interpolateGo b none cs).map (c :: ·)
    | some acc =>
      if c = rbrace then
        match b.lookup (String.mk acc) with
        | none => none
        | some e => (interpolateGo b none cs).map (fun rest => e.name.data ++ rest)
      else interpolateGo b (some (acc ++ [c])) cs

/-- String-level interpolation wrapper. -/
def interpolate (s : String) (b : Bindings) : Option String :=
  (interpolateGo b none s.data).map String.mk

/-- Source: `_get_preconditions_to_ignore`: the preconditions with exactly
one required role and no optional roles (these are pre-filtered by
per-role candidate pruning). -/
def getPreconditionsToIgnore (rule : Rule) : List Condition :=
  rule.preconditions.filter fun p =>
    (p.requiredRoles.length == 1) && !p.hasOptionalRoles

/-- Source: the loop of `_triggers`: skip ignored preconditions and those
referencing optional roles, and fail at the first precondition that does
not hold (so later preconditions are not evaluated). -/
def triggersLoop (wm : WorkingMemory) (ignores : List Condition) (b : Bindings) :
    List Condition → Option Bool
  | [] => some true
  | p :: rest =>
    if ignores.contains p then triggersLoop wm ignores b rest
    else if p.hasOptionalRoles then triggersLoop wm ignores b rest
    else
      match condHolds wm b p with
      | none => none
      | some true => triggersLoop wm ignores b rest
      | some false => some false

/-- Source: `RuleEngine._triggers` (`ignores = []` models the `None`
default used for response actions). -/
def triggers (wm : WorkingMemory) (rule : Rule) (b : Bindings)
    (ignores : List Condition) : Option Bool :=
  triggersLoop wm ignores b rule.preconditions

/-- Source: the inner loop of `_prune_rules_pool`: a rule is dropped when
one of its zero-role (no required, no optional roles) preconditions fails
to hold under empty bindings; evaluation stops at the first failure. -/
def pruneCheckLoop (wm : WorkingMemory) : List Condition → Option Bool
  | [] => some true
  | p :: rest =>
    if !p.requiredRoles.isEmpty || p.hasOptionalRoles then pruneCheckLoop wm rest
    else
      match condHolds wm [] p with
      | none => none
      | some true => pruneCheckLoop wm rest
      | some false => some false

/-- Source: `RuleEngine._prune_rules_pool`. -/
def pruneRulesPool (wm : WorkingMemory) : List Rule → Option (List Rule)
  | [] => some []
  | r :: rest => do
    let keep ← pruneCheckLoop wm r.preconditions
    let prunedRest ← pruneRulesPool wm rest
    some (if keep then r :: prunedRest else prunedRest)

/-- Source: the applicability test inside `_prune_role_candidate_pool`: the
precondition references exactly this one required role and no optional
roles. -/
def singleRolePreconditionApplies (role : Role) (p : Condition) : Bool :=
  p.requiredRoles.contains role && (p.requiredRoles.length == 1) &&
    !p.hasOptionalRoles

/-- Source: the candidate loop of `_prune_role_candidate_pool`: each
candidate of the original pool is tested and removed from the pruned pool
on failure (the `try/except ValueError` around `remove` makes a second
removal a no-op, which `List.erase` models). -/
def prunePoolByPrecondition (wm : WorkingMemory) (roleName : String) (p : Condition) :
    List Entity → List Entity → Option (List Entity)
  | [], pruned => some pruned
  | c :: cs, pruned => do
    let h ← condHolds wm [(roleName, c)] p
    prunePoolByPrecondition wm roleName p cs (if h then pruned else pruned.erase c)

/-- Source: `RuleEngine._prune_role_candidate_pool`. -/
def pruneRoleCandidatePool (wm : WorkingMemory) (rule : Rule) (role : Role)
    (pool : List Entity) : Option (List Entity) :=
  go rule.preconditions pool
where
  go : List Condition → List Entity → Option (List Entity)
    | [], pruned => some pruned
    | p :: rest, pruned =>
      if singleRolePreconditionApplies role p then do
        let pruned2 ← prunePoolByPrecondition wm role.name p pool pruned
        go rest pruned2
      else go rest pruned

/-- Source: `required_roles_in_order` of `_compile_candidate_bindings`. -/
def requiredRolesInOrder (rule : Rule) : List Role :=
  rule.roles.filter fun r => r.required && !r.actionSelfReference

/-- Source: the pool-building loop of `_compile_candidate_bindings`: look up
each required role's type pool (present, by the earlier domain check),
prune it, and return early with no bindings (`inner none`) when a pruned
pool is empty. -/
def buildRolePools (wm : WorkingMemory) (domain : Domain) (rule : Rule) :
    List Role → Option (Option (List (List Entity)))
  | [] => some (some [])
  | role :: rest => do
    let pool := (domain.lookup role.entityType).getD []
    let pruned ← pruneRoleCandidatePool wm rule role pool
    if pruned.isEmpty then some none
    else
      match ← buildRolePools wm domain rule rest with
      | none => some none
      | some pools => some (some (pruned :: pools))

/-- Source: `itertools.product` over the candidate pools (leftmost pool
varies slowest). -/
def listProduct : List (List Entity) → List (List Entity)
  | [] => [[]]
  | pool :: rest => pool.flatMap fun e => (listProduct rest).map (e :: ·)

/-- Source: the `len(bindings) != len(set(bindings))` duplicate-entity test
(inverted: `true` means no entity is bound to two roles). -/
def nodupB (l : List Entity) : Bool := l.dedup.length == l.length

/-- Source: the per-tuple loop of `_attempt_rule_execution` over the lazily
yielded candidate bindings: skip tuples binding one entity twice, build the
bindings dict in role order, and stop at the first tuple whose remaining
preconditions all hold. -/
def findTriggeringLoop (wm : WorkingMemory) (rule : Rule) (ignores : List Condition)
    (names : List String) : List (List Entity) → Option (Option Bindings)
  | [] => some none
  | tuple :: rest =>
    if !nodupB tuple then findTriggeringLoop wm rule ignores names rest
    else do
      let b : Bindings := names.zip tuple
      let trig ← triggers wm rule b ignores
      if trig then some (some b) else findTriggeringLoop wm rule ignores names rest

/-- Candidate enumeration and precondition testing for one rule: the
combination of `_compile_candidate_bindings` and the binding loop of
`_attempt_rule_execution`. -/
def findBindingsForRule (wm : WorkingMemory) (domain : Domain) (rule : Rule) :
    Option (Option Bindings) := do
  let roles := requiredRolesInOrder rule
  match ← buildRolePools wm domain rule roles with
  | none => some none
  | some pools =>
    findTriggeringLoop wm rule (getPreconditionsToIgnore rule) (roles.map Role.name)
      (listProduct pools)

/-- Source: the rule loop of `_attempt_rule_execution`: skip response-action
rules, skip rules with a required role whose type has no domain entry, and
return the first rule (with bindings) whose preconditions hold. -/
def selectRuleLoop (wm : WorkingMemory) (domain : Domain) :
    List Rule → Option (Option (Rule × Bindings))
  | [] => some none
  | r :: rest =>
    if r.isResponseAction then selectRuleLoop wm domain rest
    else if r.roles.any (fun role => role.required && (domain.lookup role.entityType).isNone) then
      selectRuleLoop wm domain rest
    else do
      match ← findBindingsForRule wm domain r with
      | some b => some (some (r, b))
      | none => selectRuleLoop wm domain rest

/-- Source: the precondition test of `_bind_optional_role`: all
preconditions are evaluated against the trial bindings, stopping at the
first failure. -/
def allPreconditionsHoldLoop (wm : WorkingMemory) (b : Bindings) :
    List Condition → Option Bool
  | [] => some true
  | p :: rest =>
    match condHolds wm b p with
    | none => none
    | some false => some false
    | some true => allPreconditionsHoldLoop wm b rest

/-- Source: the candidate loop of `_bind_optional_role`: skip entities
already bound, trial-bind, and commit the first candidate for which every
precondition holds. -/
def bindOptionalRoleLoop (wm : WorkingMemory) (rule : Rule) (role : Role) (b : Bindings) :
    List Entity → Option (Option Entity)
  | [] => some none
  | e :: rest =>
    if b.any (fun p => p.2 == e) then bindOptionalRoleLoop wm rule role b rest
    else do
      let ok ← allPreconditionsHoldLoop wm (dictInsert b role.name e) rule.preconditions
      if ok then some (some e) else bindOptionalRoleLoop wm rule role b rest

/-- Source: `RuleEngine._bind_optional_role` (a `KeyError` on the type pool
returns `None`). -/
def bindOptionalRole (wm : WorkingMemory) (domain : Domain) (rule : Rule) (role : Role)
    (b : Bindings) : Option (Option Entity) :=
  match domain.lookup role.entityType with
  | none => some none
  | some pool => bindOptionalRoleLoop wm rule role b pool

/-- Candidate name tried by the collision loop of
`_bind_entity_creation_role` at suffix `k` (`k = 0` is the interpolated
base name itself). -/
def nameCandidate (base : String) (k : ℕ) : String :=
  if k = 0 then base else base ++ " (" ++ Nat.repr k ++ ")"

/-- Fuel-bounded form of the collision loop of
`_bind_entity_creation_role`.  The Python loop is unbounded; the candidate
names are pairwise distinct, so `names.length + 1` tries always suffice
(proved in `freshNameGo_spec` below), making the out-of-fuel branch
unreachable. -/
def freshNameGo (names : List String) (base : String) : ℕ → ℕ → String
  | 0, k => nameCandidate base k
  | Nat.succ fuel, k =>
    if nameCandidate base k ∈ names then freshNameGo names base fuel (k + 1)
    else nameCandidate base k

/-- Source: the `while any(...)` collision loop of
`_bind_entity_creation_role`: starting from the interpolated base name,
append ` (k)` for `k = 1, 2, ...` until no existing entity carries the
name. -/
def freshName (names : List String) (base : String) : String :=
  freshNameGo names base (names.length + 1) 0

/-- Source: `RuleEngine._bind_entity_creation_role`: interpolate the recipe,
derive a unique name, create the entity, and append it to the domain under
its type (creating the key if needed). -/
def bindEntityCreationRole (domain : Domain) (role : Role) (b : Bindings) :
    Option (Entity × Domain) := do
  let base ← interpolate (role.entityNameRecipe.getD "") b
  let resolved := freshName (domainEntityNames domain) base
  let newEntity : Entity := { name := resolved, type := role.entityType }
  some (newEntity, assocAppend domain role.entityType newEntity)

/-- Source: the first loop of `_bind_optional_roles`: bind each
non-required, non-self-reference, non-recipe role to the first viable
entity, if any. -/
def bindOptionalRolesPhase1 (wm : WorkingMemory) (domain : Domain) (rule : Rule) :
    List Role → Bindings → Option Bindings
  | [], b => some b
  | role :: rest, b =>
    if role.hasRecipe then bindOptionalRolesPhase1 wm domain rule rest b
    else if !role.required && !role.actionSelfReference then do
      match ← bindOptionalRole wm domain rule role b with
      | some e => bindOptionalRolesPhase1 wm domain rule rest (dictInsert b role.name e)
      | none => bindOptionalRolesPhase1 wm domain rule rest b
    else bindOptionalRolesPhase1 wm domain rule rest b

/-- Source: the second loop of `_bind_optional_roles`: bind each
entity-creating role, threading the growing domain. -/
def bindOptionalRolesPhase2 : List Role → Domain → Bindings → Option (Domain × Bindings)
  | [], d, b => some (d, b)
  | role :: rest, d, b =>
    if role.hasRecipe then do
      let (e, d2) ← bindEntityCreationRole d role b
      bindOptionalRolesPhase2 rest d2 (dictInsert b role.name e)
    else bindOptionalRolesPhase2 rest d b

/-- Source: `RuleEngine._bind_optional_roles`. -/
def bindOptionalRoles (wm : WorkingMemory) (domain : Domain) (rule : Rule) (b : Bindings) :
    Option (Domain × Bindings) := do
  let b1 ← bindOptionalRolesPhase1 wm domain rule rule.roles b
  bindOptionalRolesPhase2 rule.roles domain b1

/-- Source: `RuleEngine._spawn_action`: interpolate the action string, trim
the authored quote characters with `[1:-1]`, create an `Action`-typed
entity with the display string as its name, append it to the domain under
the `Action` type (no name-collision check), bind it to `This`, and record
the `Action` object. -/
def spawnAction (es : EngineState) (rule : Rule) (b : Bindings) :
    Option (EngineState × Bindings) := do
  let resolvedFull ← interpolate rule.actionString b
  let resolvedActionString := pyInner resolvedFull
  let actionEntity : Entity := { name := resolvedActionString, type := "Action" }
  let domain2 := assocAppend es.domain "Action" actionEntity
  let b2 := dictInsert b "This" actionEntity
  let actionObject : ActionRec :=
    { name := rule.actionName, string := resolvedActionString, bindings := b2 }
  some ({ es with domain := domain2, actions := es.actions ++ [actionObject] }, b2)

/-- Source: the effect dispatch of `_fire`: negated predicates call
`delete`, others call `add`. -/
def applyEffectPred (wm : WorkingMemory) (b : Bindings) (p : Pred) :
    Option WorkingMemory :=
  if p.negated then wm.delete p.template b else some (wm.add p.template b)

/-- Source: one effect of `_fire`: a ternary effect evaluates its condition
and picks a branch (a `()` branch is a silent no-op). -/
def applyEffect (wm : WorkingMemory) (b : Bindings) : Effect → Option WorkingMemory
  | .pred p => applyEffectPred wm b p
  | .ternary cond ifTrue ifFalse => do
    let c ← condHolds wm b cond
    match (if c then ifTrue else ifFalse) with
    | none => some wm
    | some p => applyEffectPred wm b p

/-- Source: the effect loop of `_fire` (declaration order). -/
def applyEffects (b : Bindings) : WorkingMemory → List Effect → Option WorkingMemory
  | wm, [] => some wm
  | wm, e :: rest => do applyEffects b (← applyEffect wm b e) rest

/-- Source: the binding composition of the response loop of `_fire`:
`response_action_bindings[target] = bindings[source]` (a missing source
binding raises `KeyError`). -/
def composeResponseBindings (b : Bindings) :
    List (String × String) → Bindings → Option Bindings
  | [], acc => some acc
  | (target, source) :: rest, acc => do
    let e ← b.lookup source
    composeResponseBindings b rest (dictInsert acc target e)

/-- The two mutually recursive activities of `RuleEngine._fire`: firing a
rule, and working through a fired rule's declared response actions. -/
inductive FireCall
  | fireRule (rule : Rule) (b : Bindings)
  | responses (rule : Rule) (b : Bindings) (ras : List ResponseAction)

/-- Source: `RuleEngine._fire`.  `.fireRule` spawns the action entity,
executes the effects in order, and moves on to the response actions;
`.responses` is the response loop: look up the target rule, compose
bindings, evaluate the target's preconditions, draw against
`rule.probability` — the probability of the rule that just fired, not the
target's — and on success fire the target recursively before continuing
with the remaining declarations.  The recursion is fuel-bounded;
exhausted fuel models the stack overflow an authored response cycle would
produce. -/
def fireGo : ℕ → FireCall → EngineState → Option EngineState
  | 0, _, _ => none
  | Nat.succ fuel, c, es =>
    match c with
    | .fireRule rule b => do
      let (es1, b1) ← spawnAction es rule b
      let wm2 ← applyEffects b1 es1.workingMemory rule.effects
      fireGo fuel (.responses rule b1 rule.responseActions) { es1 with workingMemory := wm2 }
    | .responses rule b ras =>
      match ras with
      | [] => some es
      | ra :: rest => do
        let target ← es.rules.find? (fun r => r.actionName == ra.actionName)
        let composed ← composeResponseBindings b ra.actionBindings []
        let trig ← triggers es.workingMemory target composed []
        if trig then
          let d := es.draws es.drawIdx
          let es1 := { es with drawIdx := es.drawIdx + 1 }
          if d < rule.probability then do
            let es2 ← fireGo fuel (.fireRule target composed) es1
            fireGo fuel (.responses rule b rest) es2
          else fireGo fuel (.responses rule b rest) es1
        else fireGo fuel (.responses rule b rest) es

/-- Source: `RuleEngine._fire` entry point. -/
def fire (fuel : ℕ) (rule : Rule) (b : Bindings) (es : EngineState) :
    Option EngineState :=
  fireGo fuel (.fireRule rule b) es

/-- Source: `RuleEngine._attempt_rule_execution` with
`shuffle_randomly = False`: prune the rules pool, select the first rule and
binding tuple whose preconditions hold, draw, and on success bind optional
and entity-creating roles and fire; the attempt is consumed either way. -/
def attemptRuleExecution (fuel : ℕ) (es : EngineState) : Option EngineState := do
  let pruned ← pruneRulesPool es.workingMemory es.rules
  match ← selectRuleLoop es.workingMemory es.domain pruned with
  | none => some es
  | some (rule, b) =>
    let d := es.draws es.drawIdx
    let es1 := { es with drawIdx := es.drawIdx + 1 }
    if d < rule.probability then do
      let (domain2, b2) ← bindOptionalRoles es1.workingMemory es1.domain rule b
      fire fuel rule b2 { es1 with domain := domain2 }
    else some es1

/-- Source: `RuleEngine.execute(n)`: up to `n` rule-execution attempts. -/
def execute (fuel : ℕ) : ℕ → EngineState → Option EngineState
  | 0, es => some es
  | Nat.succ n, es => do execute fuel n (← attemptRuleExecution fuel es)

/-! ### Grammar engine (`grammar/engine.py`) -/

/-- An element of an intermediate derivation (`generate`): a terminal
string (which is also how the `<$$begin @var>`/`<$$end @var>` bookkeeping
markers are represented in the source), a `NonterminalSymbol` reference, a
`VariableReference`, or a `(symbol, "@var")` write-state tuple. -/
inductive GElem
  | str (s : String)
  | sym (name : String)
  | varRef (v : String)
  | symWrite (name : String) (vref : String)
deriving DecidableEq, Repr

/-- A parsed grammar: each nonterminal symbol's name with its production-rule
bodies (the output of the grammar compiler, which the claims do not
model). -/
structure GGrammar where
  symbols : List (String × List (List GElem))
deriving DecidableEq, Repr

/-- Source: `NonterminalSymbol.rewrite`: `random.choice(self.rules)` —
modeled by an oracle choice index reduced mod the rule count; choosing from
an empty rule list raises `IndexError` (`none`). -/
def symRewrite (g : GGrammar) (name : String) (choice : ℕ) : Option (List GElem) := do
  let bodies ← g.symbols.lookup name
  match bodies with
  | [] => none
  | _ => bodies.get? (choice % bodies.length)

/-- Source: `_derivation_includes_reference`: any symbol, variable
reference, write tuple, or `<$$`-prefixed string makes the derivation
incomplete. -/
def gIncludesRef (d : List GElem) : Bool :=
  d.any fun e =>
    match e with
    | .sym _ => true
    | .varRef _ => true
    | .symWrite _ _ => true
    | .str s => pyStartsWith s "<$$"

/-- Source: `element.split()[1][1:-1]` — extract the variable name from an
`<$$end @var>` marker (an out-of-range index raises, `none`). -/
def endMarkerVar (s : String) : Option String :=
  match (pySplitWs s).get? 1 with
  | none => none
  | some w => some (pyInner w)

/-- Source: the value-collection loop of the `<$$end` branch of `generate`:
scan the whole derivation; a `<$$begin @var>` marker (re)arms collection, the
exact `<$$end @var>` marker concludes it (yielding the value to write), and
any other element is appended to the value once collection is armed.  A
non-string element in collecting position is a `TypeError` (`none`); a
missing end marker means no write happens (`some none`). -/
def collectValue (v : String) : List GElem → Bool → String → Option (Option String)
  | [], _, _ => some none
  | e :: rest, reached, acc =>
    match e with
    | .str s =>
      if s == "<$$begin @" ++ v ++ ">" then collectValue v rest true acc
      else if s == "<$$end @" ++ v ++ ">" then some (some acc)
      else if reached then collectValue v rest reached (acc ++ s)
      else collectValue v rest reached acc
    | _ => if reached then none else collectValue v rest reached acc

/-- Source: the marker-removal loop of the `<$$end` branch: every
`<$$begin @var>` and `<$$end @var>` element is blanked to the empty
string. -/
def blankMarkers (v : String) (d : List GElem) : List GElem :=
  d.map fun e =>
    match e with
    | .str s =>
      if s == "<$$begin @" ++ v ++ ">" || s == "<$$end @" ++ v ++ ">" then .str ""
      else e
    | _ => e

/-- Outcome of one left-to-right scan of the derivation (the `for` loop of
`generate`): a rewrite happened, nothing was actionable (the `for` loop
fell through, so the `while` loop spins forever), or an exception. -/
inductive GScanOut
  | next (st : List (String × String)) (d : List GElem) (choiceIdx : ℕ)
  | noActionable
  | err
deriving Repr

/-- Source: one pass of the `for i, element in enumerate(...)` loop of
`generate`: rewrite the first actionable element.  Symbols splice a chosen
rule body; variable references splice the state value (an undefined
variable is fatal); write tuples splice the body bracketed by begin/end
markers; an `<$$end ...>` string performs the state write and blanks the
markers; other strings (plain terminals and `<$$begin` markers) are
scanned past. -/
def gScanGo (g : GGrammar) (st : List (String × String)) (choices : ℕ → ℕ)
    (choiceIdx : ℕ) (full : List GElem) : List GElem → List GElem → GScanOut
  | _, [] => .noActionable
  | pre, e :: post =>
    match e with
    | .sym n =>
      match symRewrite g n (choices choiceIdx) with
      | none => .err
      | some body => .next st (pre ++ body ++ post) (choiceIdx + 1)
    | .varRef v =>
      match st.lookup v with
      | none => .err
      | some val => .next st (pre ++ [.str val] ++ post) choiceIdx
    | .symWrite n vref =>
      match symRewrite g n (choices choiceIdx) with
      | none => .err
      | some body =>
        .next st
          (pre ++ [.str ("<$$begin " ++ vref ++ ">")] ++ body ++
            [.str ("<$$end " ++ vref ++ ">")] ++ post)
          (choiceIdx + 1)
    | .str s =>
      if pyStartsWith s "<$$end" then
        match endMarkerVar s with
        | none => .err
        | some v =>
          match collectValue v full false "" with
          | none => .err
          | some write? =>
            let st2 := match write? with
              | some val => dictInsert st v val
              | none => st
            .next st2 (blankMarkers v full) choiceIdx
      else gScanGo g st choices choiceIdx full (pre ++ [e]) post

/-- A generation state: the engine state dict, the intermediate derivation,
and the choice oracle with its counter. -/
structure GenState where
  gstate : List (String × String)
  deriv : List GElem
  choices : ℕ → ℕ
  choiceIdx : ℕ

/-- Source: the `while self._derivation_includes_reference(...)` loop of
`generate`, fuel-bounded: `some` is a normal exit (only terminals remain);
`none` covers exceptions, an infinite loop (nothing actionable), and
exhausted fuel. -/
def gIter (g : GGrammar) : ℕ → GenState → Option GenState
  | 0, _ => none
  | Nat.succ fuel, gs =>
    if gIncludesRef gs.deriv then
      match gScanGo g gs.gstate gs.choices gs.choiceIdx gs.deriv [] gs.deriv with
      | .noActionable => none
      | .err => none
      | .next st2 d2 ci2 =>
        gIter g fuel { gstate := st2, deriv := d2, choices := gs.choices, choiceIdx := ci2 }
    else some gs

/-- Source: `_render_surface_form`: concatenate, skipping every
`<$$`-prefixed string and rendering unresolved references in bracket
form. -/
def renderSurfaceForm (d : List GElem) : String :=
  d.foldl (fun acc e =>
    acc ++
      match e with
      | .sym n => "<" ++ n ++ ">"
      | .varRef v => "<@" ++ v ++ ">"
      | .symWrite n vref => "<" ++ n ++ " " ++ vref ++ ">"
      | .str s => if pyStartsWith s "<$$" then "" else s) ""

/-- Source: `GrammarEngine.generate`: start from `[start_symbol]` (an
undefined start symbol is fatal), run the derivation loop, and render the
surface form. -/
def generate (g : GGrammar) (fuel : ℕ) (startSymbol : String)
    (st0 : List (String × String)) (choices : ℕ → ℕ) : Option String := do
  let _ ← g.symbols.lookup startSymbol
  let gs ← gIter g fuel { gstate := st0, deriv := [.sym startSymbol], choices := choices, choiceIdx := 0 }
  some (renderSurfaceForm gs.deriv)

/-! ### Grammar-engine construction (`GrammarEngine.__init__`, C9) -/

/-- A Python value as far as the `type(x) is str` checks of
`GrammarEngine.__init__` are concerned. -/
inductive PyVal
  | str (s : String)
  | nonStr
deriving DecidableEq, Repr

/-- The `initial_state` argument of `GrammarEngine.__init__`: `None`, a
non-dict value, or a dict of Python values. -/
inductive InitialStateArg
  | noneArg
  | nonDict
  | dict (entries : List (PyVal × PyVal))
deriving DecidableEq, Repr

/-- The string pairs of a dict whose keys and values are all strings (the
content `dict(initial_state)` copies on the successful path). -/
def strPairs (entries : List (PyVal × PyVal)) : List (String × String) :=
  entries.filterMap fun kv =>
    match kv with
    | (.str k, .str v) => some (k, v)
    | _ => none

/-- Source: the validation loop of `GrammarEngine.__init__`: each entry's
key and value must be a `str`, and — faithfully to the source — the
assignment `self.state = dict(initial_state)` sits INSIDE the loop body, so
it only runs when at least one entry is processed. -/
def grammarEngineInitLoop (all : List (PyVal × PyVal)) :
    List (PyVal × PyVal) → Option (List (String × String)) →
    Except String (Option (List (String × String)))
  | [], st => .ok st
  | (k, v) :: rest, _st =>
    match k with
    | .nonStr => .error "Key in initial_state is not a str."
    | .str _ =>
      match v with
      | .nonStr => .error "Value in initial_state is not a str."
      | .str _ => grammarEngineInitLoop all rest (some (strPairs all))

/-- Source: the `initial_state` handling of `GrammarEngine.__init__`.  The
result is the value of the `state` attribute after construction: `some`
when the attribute was assigned, `none` when the code path never assigned
it (the parsing and validation of the grammar file are separate and not
modeled). -/
def grammarEngineInitState : InitialStateArg →
    Except String (Option (List (String × String)))
  | .noneArg => .ok (some [])
  | .nonDict => .error "initial_state must be either None or a dictionary."
  | .dict entries => grammarEngineInitLoop entries entries none

/-! ### Concrete fixtures used to evaluate the model on authored scenarios -/

/-- The entity `alice : Person` of the S1/S3 scenarios. -/
def aliceFix : Entity := { name := "alice", type := "Person" }

/-- The required role `Greeter:Person` of the S1 scenario. -/
def roleGreeter : Role := { name := "Greeter", entityType := "Person" }

/-- The `This` role the rule compiler appends to every `roles:` section. -/
def roleThis : Role := { name := "This", entityType := "Action" }

/-- The roles `X:Person` and `Y:Person` of the S6 scenario. -/
def roleX : Role := { name := "X", entityType := "Person" }

/-- See `roleX`. -/
def roleY : Role := { name := "Y", entityType := "Person" }

/-- The precondition `(Greeter is happy)` of the S1 scenario. -/
def predHappy : Pred :=
  { template := [.role roleGreeter, .lit "is", .lit "happy"], negated := false }

/-- The S1 rule `$Greet` with no effects (so that it can fire repeatedly). -/
def greetRule : Rule :=
  { actionName := "Greet",
    actionString := "\"{Greeter} greets.\"",
    roles := [roleGreeter, roleThis],
    preconditions := [.pred predHappy] }

/-- Working memory holding the single initial fact `alice is happy`. -/
def wmHappy : WorkingMemory :=
  { facts := ["alice is happy"], index := [('a', ["alice is happy"])] }

/-- Engine state for the S1 scenario (`{alice : Person}`, fact
`alice is happy`, rule `$Greet`), with an all-zero draw oracle. -/
def esGreet : EngineState :=
  { rules := [greetRule],
    domain := [("Person", [aliceFix])],
    workingMemory := wmHappy,
    actions := [],
    draws := fun _ => 0,
    drawIdx := 0 }

/-- A response-action target rule with probability `0`: under the claimed
semantics a draw is never below `0`, so if the target's own probability
were consulted it could never fire. -/
def cheerRule : Rule :=
  { actionName := "Cheer",
    isResponseAction := true,
    actionString := "\"{X} cheers.\"",
    probability := 0,
    roles := [roleX, roleThis],
    preconditions := [] }

/-- The response declaration `Cheer(X=Greeter)`. -/
def cheerResponse : ResponseAction :=
  { actionName := "Cheer", actionBindings := [("X", "Greeter")] }

/-- A probability-`1` firing rule declaring the `Cheer` response. -/
def greetWithResponseRule : Rule :=
  { actionName := "Greet",
    actionString := "\"{Greeter} greets.\"",
    roles := [roleGreeter, roleThis],
    preconditions := [.pred predHappy],
    responseActions := [cheerResponse] }

/-- Engine state for the response scenario (S4-style). -/
def esResponse : EngineState :=
  { rules := [greetWithResponseRule, cheerRule],
    domain := [("Person", [aliceFix])],
    workingMemory := wmHappy,
    actions := [],
    draws := fun _ => 0,
    drawIdx := 0 }

/-- Bindings `Greeter = alice` as produced by candidate enumeration. -/
def bGreeter : Bindings := [("Greeter", aliceFix)]

/-- The entity-creating role `+Note={Writer} Note:Prop` of the S3 scenario
(with a recipe free of quote characters, for which the f-string escaping of
the source is the identity). -/
def roleNote : Role :=
  { name := "Note", entityType := "Prop", entityNameRecipe := some "{Writer} Note" }

/-- A domain in which `alice Note` already exists, so that a second creation
must derive `alice Note (1)`. -/
def domainWithNote : Domain :=
  [("Person", [aliceFix]), ("Prop", [{ name := "alice Note", type := "Prop" }])]

/-- The entity the second S3-style creation produces. -/
def noteEntity1 : Entity := { name := "alice Note (1)", type := "Prop" }

/-- The domain after the second S3-style creation. -/
def domainWithNote2 : Domain :=
  [("Person", [aliceFix]),
   ("Prop", [{ name := "alice Note", type := "Prop" }, noteEntity1])]

/-- A literal-only template grounding to `sky is blue`. -/
def skyTemplate : List TemplateElem := [.lit "sky", .lit "is", .lit "blue"]

/-- The empty working memory. -/
def wmEmpty : WorkingMemory := { facts := [], index := [] }

/-- A template referencing the (unbound) optional role `Y`. -/
def templateWithY : List TemplateElem := [.role roleY, .lit "smiles"]

/-- A template grounding to a single space (whitespace-only). -/
def blankTemplate : List TemplateElem := [.lit "", .lit ""]

/-- The grammar of the marker-leak run: `S -> <X @v> <@v>`, `X -> x<Y @a>`,
`Y -> <Z @v>`, `Z -> z`.  The inner write to `v` crosses the write to `a`,
so the value written to `v` captures the literal `<$$begin @a>` marker
text, which the final `<@v>` reference splices into the output. -/
def crossingGrammar : GGrammar :=
  { symbols :=
      [("S", [[.symWrite "X" "@v", .str " ", .varRef "v"]]),
       ("X", [[.str "x", .symWrite "Y" "@a"]]),
       ("Y", [[.symWrite "Z" "@v"]]),
       ("Z", [[.str "z"]])] }

/-- A one-production grammar `S -> hi`. -/
def hiGrammar : GGrammar := { symbols := [("S", [[.str "hi"]])] }

/-- The generation state the `hi` derivation finishes in. -/
def hiFinal : GenState :=
  { gstate := [], deriv := [.str "hi"], choices := fun _ => 0, choiceIdx := 1 }

/-- The initial generation state of the `hi` derivation. -/
def hiStart : GenState :=
  { gstate := [], deriv := [.sym "S"], choices := fun _ => 0, choiceIdx := 0 }

/-- Components of a rule-definition body with `roles:` and `preconditions:`
sections but no `prob:` section. -/
def componentsNoProb : List String :=
  ["roles:", "\nGreeter:Person\n", "preconditions:", "\n(Greeter is happy)\n"]

/-- Decimal value of a digit character. -/
def decVal (c : Char) : ℕ := c.toNat - 48

/-- Decimal value of a digit list, most significant first. -/
def digitsVal (l : List Char) : ℕ := l.foldl (fun acc c => acc * 10 + decVal c) 0

/-! ### Helper lemmas: `Nat.repr` is injective, and the collision loop of
`_bind_entity_creation_role` finds the smallest free suffix -/

theorem decVal_digitChar (d : ℕ) (h : d < 10) : decVal (Nat.digitChar d) = d := by
  interval_cases d <;> rfl

theorem toDigitsCore_append (fuel n : ℕ) (ds : List Char) :
    Nat.toDigitsCore 10 fuel n ds = Nat.toDigitsCore 10 fuel n [] ++ ds := by
  induction fuel generalizing n ds with
  | zero => simp [Nat.toDigitsCore]
  | succ fuel ih =>
    simp only [Nat.toDigitsCore]
    by_cases h : n / 10 = 0
    · simp [h]
    · simp only [h, if_false]
      rw [ih (n / 10) (Nat.digitChar (n % 10) :: ds), ih (n / 10) [Nat.digitChar (n % 10)]]
      simp

theorem digitsVal_toDigitsCore (fuel n : ℕ) (h : n < fuel) :
    digitsVal (Nat.toDigitsCore 10 fuel n []) = n := by
  induction fuel generalizing n with
  | zero => omega
  | succ fuel ih =>
    simp only [Nat.toDigitsCore]
    by_cases h10 : n / 10 = 0
    · simp only [h10, if_true, digitsVal, List.foldl]
      rw [decVal_digitChar (n % 10) (Nat.mod_lt _ (by norm_num))]
      omega
    · simp only [h10, if_false]
      rw [toDigitsCore_append]
      have hdiv : n / 10 < fuel := by
        have h1 : n / 10 < n := Nat.div_lt_self (by omega) (by norm_num)
        omega
      simp only [digitsVal, List.foldl_append, List.foldl]
      have hv := ih (n / 10) hdiv
      simp only [digitsVal] at hv
      rw [hv, decVal_digitChar (n % 10) (Nat.mod_lt _ (by norm_num))]
      omega

theorem natRepr_injective : Function.Injective Nat.repr := by
  intro m n h
  have hdata : Nat.toDigits 10 m = Nat.toDigits 10 n := congrArg String.data h
  have hm := digitsVal_toDigitsCore (m + 1) m (Nat.lt_succ_self m)
  have hn := digitsVal_toDigitsCore (n + 1) n (Nat.lt_succ_self n)
  unfold Nat.toDigits at hdata
  rw [← hm, ← hn, hdata]

theorem toDigitsCore_ne_nil (fuel n : ℕ) : Nat.toDigitsCore 10 (fuel + 1) n [] ≠ [] := by
  simp only [Nat.toDigitsCore]
  by_cases h : n / 10 = 0
  · simp [h]
  · simp only [h, if_false]
    rw [toDigitsCore_append]
    simp

theorem natRepr_data_ne_nil (n : ℕ) : (Nat.repr n).data ≠ [] := by
  show (Nat.toDigits 10 n).asString.data ≠ []
  unfold Nat.toDigits
  exact toDigitsCore_ne_nil n n

theorem nameCandidate_injective (base : String) :
    Function.Injective (nameCandidate base) := by
  intro j k h
  unfold nameCandidate at h
  have hlen : ∀ i : ℕ,
      (base ++ " (" ++ Nat.repr i ++ ")").data.length =
        base.data.length + (Nat.repr i).data.length + 3 := by
    intro i
    simp only [String.data_append, List.length_append]
    have : (") " : String).data.length = 2 := rfl
    simp
    omega
  have hpos : ∀ i : ℕ, 1 ≤ (Nat.repr i).data.length := by
    intro i
    cases hh : (Nat.repr i).data with
    | nil => exact absurd hh (natRepr_data_ne_nil i)
    | cons a l => simp
  by_cases hj : j = 0 <;> by_cases hk : k = 0
  · omega
  · rw [if_pos hj, if_neg hk] at h
    have hd := congrArg (fun s => s.data.length) h
    simp only at hd
    rw [hlen k] at hd
    have := hpos k
    omega
  · rw [if_neg hj, if_pos hk] at h
    have hd := congrArg (fun s => s.data.length) h
    simp only at hd
    rw [hlen j] at hd
    have := hpos j
    omega
  · rw [if_neg hj, if_neg hk] at h
    have hd := congrArg String.data h
    simp only [String.data_append] at hd
    rw [List.append_assoc, List.append_assoc, List.append_assoc, List.append_assoc] at hd
    have h2 := List.append_cancel_left hd
    have h3 := List.append_cancel_left h2
    have h4 := (List.append_inj h3 (by
      have := congrArg List.length h3
      simp only [List.length_append] at this
      omega)).1
    have hrepr : Nat.repr j = Nat.repr k := by
      have := congrArg String.mk h4
      simpa using this
    exact natRepr_injective hrepr

theorem freshNameGo_spec (names : List String) (base : String) :
    ∀ fuel k, (∃ j, j < fuel ∧ nameCandidate base (k + j) ∉ names) →
      freshNameGo names base fuel k ∉ names ∧
      ∃ j, freshNameGo names base fuel k = nameCandidate base (k + j) ∧
        ∀ i, i < j → nameCandidate base (k + i) ∈ names := by
  intro fuel
  induction fuel with
  | zero =>
    intro k h
    obtain ⟨j, hj, _⟩ := h
    omega
  | succ fuel ih =>
    intro k h
    by_cases hk : nameCandidate base k ∈ names
    · have hstep : freshNameGo names base (fuel + 1) k = freshNameGo names base fuel (k + 1) := by
        simp [freshNameGo, hk]
      obtain ⟨j, hj, hfree⟩ := h
      have hj0 : j ≠ 0 := by
        intro h0
        rw [h0] at hfree
        simp at hfree
        exact hfree hk
      obtain ⟨j2, rfl⟩ : ∃ j2, j = j2 + 1 := ⟨j - 1, by omega⟩
      have hrec := ih (k + 1) ⟨j2, by omega, by
        have : k + 1 + j2 = k + (j2 + 1) := by omega
        rw [this]
        exact hfree⟩
      refine ⟨hstep ▸ hrec.1, ?_⟩
      obtain ⟨j3, hval, hall⟩ := hrec.2
      refine ⟨j3 + 1, ?_, ?_⟩
      · rw [hstep, hval]
        congr 1
        omega
      · intro i hi
        cases i with
        | zero => simpa using hk
        | succ i2 =>
          have : k + (i2 + 1) = k + 1 + i2 := by omega
          rw [this]
          exact hall i2 (by omega)
    · have hstep : freshNameGo names base (fuel + 1) k = nameCandidate base k := by
        simp [freshNameGo, hk]
      refine ⟨hstep ▸ hk, 0, by simpa using hstep, by omega⟩

theorem exists_free_candidate (names : List String) (base : String) :
    ∃ j, j ≤ names.length ∧ nameCandidate base j ∉ names := by
  by_contra hcon
  push_neg at hcon
  have hmaps : ∀ i : Fin (names.length + 1), nameCandidate base i ∈ names.toFinset := by
    intro i
    rw [List.mem_toFinset]
    exact hcon i (by omega)
  have hinj : Set.InjOn (fun i : Fin (names.length + 1) => nameCandidate base i.val)
      ↑(Finset.univ : Finset (Fin (names.length + 1))) := by
    intro a _ b _ hab
    exact Fin.ext (nameCandidate_injective base hab)
  have hcard :
      (Finset.univ : Finset (Fin (names.length + 1))).card ≤ names.toFinset.card :=
    Finset.card_le_card_of_injOn
      (fun i : Fin (names.length + 1) => nameCandidate base i.val)
      (fun a _ => hmaps a) hinj
  have h1 : (Finset.univ : Finset (Fin (names.length + 1))).card = names.length + 1 := by
    simp
  have h2 := List.toFinset_card_le names
  omega

theorem freshName_spec (names : List String) (base : String) :
    freshName names base ∉ names ∧
    ∃ k, freshName names base = nameCandidate base k ∧
      ∀ i, i < k → nameCandidate base i ∈ names := by
  obtain ⟨j, hj, hfree⟩ := exists_free_candidate names base
  have := freshNameGo_spec names base (names.length + 1) 0 ⟨j, by omega, by simpa using hfree⟩
  simpa [freshName] using this

/-! ### C1 — negated disjunction preconditions -/

/-- Claim C1 (code_bug): the spec (S6) says the precondition
`!((X likes Y) / (Y likes X))` compiles and `holds` de-Morgans the negation
over the disjunction, but `Compiler._parse_condition_definition` splits on
`/` and recursively re-checks each piece, and the second piece
`(Y likes X))` has one `(` against two `)`, so the chained test
`count('(') != count(')') != 1` raises the unbalanced-parentheses error:
no negated disjunction ever compiles (and `OrExpression.negated` is
hard-wired `False`, leaving the de-Morgan branches of `holds`
unreachable). -/
theorem negated_disjunction_fails_to_compile :
    parseConditionDefinition "!((X likes Y) / (Y likes X))" [roleX, roleY] =
      Except.error "Missing/unbalanced parentheses" := by
  rfl

/-! ### C8 — the reserved role name `This` -/

/-- Claim C8 (code_bug): the spec says a `roles:` line declaring `This` is
rejected with a fatal parse error, but `Compiler._parse_role_definition`
only assembles the error message without raising it, so the declaration
compiles to an ordinary accepted `Role`. -/
theorem role_named_this_is_accepted :
    parseRoleDefinition "This:Person" =
      Except.ok { name := "This", entityType := "Person", optional := false,
                  entityNameRecipe := none } := by
  rfl

/-! ### C9 — grammar-engine `initial_state` validation -/

/-- Claim C9 (code_bug): construction with the empty dict raises nothing but
leaves the `state` attribute unassigned (`none`), because
`self.state = dict(initial_state)` sits inside the per-entry validation
loop; the claim (and the constructor's docstring) say the state becomes a
copy of the supplied mapping.  A nonempty all-string dict and `None` behave
as claimed. -/
theorem empty_initial_state_dict_leaves_state_unassigned :
    grammarEngineInitState (.dict []) = Except.ok none ∧
    grammarEngineInitState (.dict [(.str "hero", .str "Alice")]) =
      Except.ok (some [("hero", "Alice")]) ∧
    grammarEngineInitState .noneArg = Except.ok (some []) ∧
    grammarEngineInitState .nonDict =
      Except.error "initial_state must be either None or a dictionary." ∧
    grammarEngineInitState (.dict [(.str "hero", .nonStr)]) =
      Except.error "Value in initial_state is not a str." := by
  exact ⟨rfl, rfl, rfl, rfl, rfl⟩

/-! ### C4 — repeated `add` and the first-character index -/

/-- Counterexample to claim C4 as stated: after `add`ing the same grounded
predicate twice, the store is NOT unchanged — the second `add` appends a
duplicate entry to the first-character index bucket (the fact set alone is
unchanged). -/
theorem second_add_changes_store :
    (wmEmpty.add skyTemplate []).add skyTemplate [] ≠ wmEmpty.add skyTemplate [] := by
  decide

/-- Claim C4 (corrected): a second `add` of the same predicate and bindings
leaves the fact set unchanged but appends the fact to its first-character
index bucket again (`WorkingMemory.add` runs `append` on the bucket with no
membership check). -/
theorem second_add_facts_unchanged_index_appends
    (wm : WorkingMemory) (template : List TemplateElem) (b : Bindings) (f : String)
    (hg : groundOpt template b = some f) (ht : pyStrip f ≠ "") :
    ((wm.add template b).add template b).facts = (wm.add template b).facts ∧
    ((wm.add template b).add template b).index =
      assocAppend (wm.add template b).index (f.data.headD ' ') f := by
  have h1 : wm.add template b =
      { facts := if f ∈ wm.facts then wm.facts else wm.facts ++ [f],
        index := assocAppend wm.index (f.data.headD ' ') f } := by
    simp [WorkingMemory.add, hg, ht]
  have hmem : f ∈ (if f ∈ wm.facts then wm.facts else wm.facts ++ [f]) := by
    by_cases hf : f ∈ wm.facts <;> simp [hf]
  rw [h1]
  constructor
  · simp [WorkingMemory.add, hg, ht, hmem]
  · simp [WorkingMemory.add, hg, ht]

/-- Witness for `second_add_facts_unchanged_index_appends` at the concrete
grounding `sky is blue`. -/
theorem second_add_witness :
    ((wmEmpty.add skyTemplate []).add skyTemplate []).facts =
      (wmEmpty.add skyTemplate []).facts ∧
    ((wmEmpty.add skyTemplate []).add skyTemplate []).index =
      assocAppend (wmEmpty.add skyTemplate []).index
        (("sky is blue" : String).data.headD ' ') "sky is blue" :=
  second_add_facts_unchanged_index_appends wmEmpty skyTemplate [] "sky is blue" rfl
    (by decide)

/-! ### C5 — `add` with an unbound optional role or a blank grounding -/

theorem groundParts_none_of_unbound (b : Bindings) (r : Role)
    (hlook : b.lookup r.name = none) :
    ∀ template : List TemplateElem, TemplateElem.role r ∈ template →
      groundParts b template = none := by
  intro template hmem
  induction template with
  | nil => cases hmem
  | cons e rest ih =>
    cases hmem with
    | head => simp [groundParts, hlook]
    | tail _ hmem2 =>
      cases e with
      | lit s => simp [groundParts, ih hmem2]
      | role r2 =>
        cases hl : b.lookup r2.name with
        | none => simp [groundParts, hl]
        | some ent => simp [groundParts, hl, ih hmem2]

theorem groundOpt_none_of_unbound (b : Bindings) (r : Role)
    (hlook : b.lookup r.name = none) (template : List TemplateElem)
    (hmem : TemplateElem.role r ∈ template) :
    groundOpt template b = none := by
  simp [groundOpt, groundParts_none_of_unbound b r hlook template hmem]

/-- Claim C5 (confirmed): `WorkingMemory.add` is a silent no-op (fact set
and index unchanged, no exception) when the grounding references a role
absent from the bindings, and likewise when the grounding is empty or
whitespace-only. -/
theorem add_missing_role_or_blank_is_noop (wm : WorkingMemory)
    (template : List TemplateElem) (b : Bindings) :
    ((∃ r : Role, TemplateElem.role r ∈ template ∧ b.lookup r.name = none) →
      wm.add template b = wm) ∧
    (∀ f, groundOpt template b = some f → pyStrip f = "" → wm.add template b = wm) := by
  constructor
  · rintro ⟨r, hmem, hlook⟩
    simp [WorkingMemory.add, groundOpt_none_of_unbound b r hlook template hmem]
  · intro f hg hblank
    simp [WorkingMemory.add, hg, hblank]

/-- Witness for `add_missing_role_or_blank_is_noop`: an effect referencing
the unbound optional role `Y`, and an effect grounding to a single
space. -/
theorem add_noop_witness :
    wmHappy.add templateWithY [] = wmHappy ∧ wmHappy.add blankTemplate [] = wmHappy :=
  ⟨(add_missing_role_or_blank_is_noop wmHappy templateWithY []).1
      ⟨roleY, by decide, rfl⟩,
   (add_missing_role_or_blank_is_noop wmHappy blankTemplate []).2 " " rfl rfl⟩

/-! ### C3 — entity-name uniqueness -/

/-- Counterexample to claim C3 as stated: executing the S1 `$Greet` rule
twice creates two `Action` entities both named `alice greets.` —
`_spawn_action` registers the display string as the entity name with no
collision check, so the domain ends up with two entities sharing a
name. -/
theorem duplicate_action_entity_names :
    (execute 10 2 esGreet).map
      (fun es => (domainEntityNames es.domain).dedup.length ==
        (domainEntityNames es.domain).length) = some false := by
  rfl

theorem domainEntityNames_assocAppend (d : Domain) (t : String) (ent : Entity) :
    (domainEntityNames (assocAppend d t ent)).Perm (domainEntityNames d ++ [ent.name]) := by
  induction d with
  | nil => simp [assocAppend, domainEntityNames]
  | cons p rest ih =>
    obtain ⟨k, as⟩ := p
    by_cases hk : (k == t) = true
    · simp only [assocAppend, hk, if_true]
      simp only [domainEntityNames, List.map_cons, List.flatten_cons, List.map_append,
        List.append_assoc]
      exact List.Perm.append_left _ List.perm_append_comm
    · simp only [assocAppend, hk, if_false, Bool.false_eq_true]
      simp only [domainEntityNames, List.map_cons, List.flatten_cons, List.map_append,
        List.append_assoc] at ih ⊢
      exact List.Perm.append_left _ ih

/-- Claim C3 (corrected, positive part): binding an entity-creating role
preserves the no-two-entities-share-a-name invariant — the collision loop
of `_bind_entity_creation_role` never registers a duplicate name.  (The
invariant as claimed over whole `execute` runs is false: see
`duplicate_action_entity_names`, where `_spawn_action` duplicates `Action`
entity names.) -/
theorem entity_creation_preserves_name_uniqueness
    (domain : Domain) (role : Role) (b : Bindings) (e : Entity) (d2 : Domain)
    (h : bindEntityCreationRole domain role b = some (e, d2))
    (hn : (domainEntityNames domain).Nodup) : (domainEntityNames d2).Nodup := by
  unfold bindEntityCreationRole at h
  cases hb : interpolate (role.entityNameRecipe.getD "") b with
  | none => rw [hb] at h; exact absurd h (by simp)
  | some base =>
    rw [hb] at h
    have h2 : some
        (({ name := freshName (domainEntityNames domain) base, type := role.entityType,
            attributes := [] } : Entity),
          assocAppend domain role.entityType
            { name := freshName (domainEntityNames domain) base, type := role.entityType,
              attributes := [] }) = some (e, d2) := h
    have hpair := Option.some.inj h2
    rw [Prod.mk.injEq] at hpair
    obtain ⟨he, hd⟩ := hpair
    have hperm := domainEntityNames_assocAppend domain role.entityType
      { name := freshName (domainEntityNames domain) base, type := role.entityType,
        attributes := [] }
    rw [← hd]
    refine hperm.nodup_iff.mpr ?_
    rw [List.nodup_append]
    refine ⟨hn, List.nodup_singleton _, ?_⟩
    intro a ha hb2
    simp only [List.mem_singleton] at hb2
    have hfresh := (freshName_spec (domainEntityNames domain) base).1
    exact hfresh (hb2 ▸ ha)

/-- Witness for `entity_creation_preserves_name_uniqueness`: the second
S3-style creation of `alice Note` yields the fresh name `alice Note (1)`
and keeps all domain names distinct. -/
theorem entity_creation_preserves_name_uniqueness_witness :
    (domainEntityNames domainWithNote2).Nodup :=
  entity_creation_preserves_name_uniqueness domainWithNote roleNote [("Writer", aliceFix)]
    noteEntity1 domainWithNote2 rfl (by decide)

/-! ### C6 — entity creation with the smallest unique ` (k)` suffix -/

theorem mem_assocAppend_self (d : Domain) (t : String) (ent : Entity) :
    ent ∈ ((assocAppend d t ent).lookup t).getD [] := by
  induction d with
  | nil => simp [assocAppend, List.lookup]
  | cons p rest ih =>
    obtain ⟨k, as⟩ := p
    by_cases hk : (k == t) = true
    · have hk2 : k = t := by simpa using hk
      simp [assocAppend, hk, List.lookup, hk2]
    · have hk2 : ¬(t == k) = true := by
        simp only [beq_iff_eq] at hk ⊢
        exact fun hkk => hk hkk.symm
      simp [assocAppend, hk, List.lookup, hk2, ih]

/-- Claim C6 (confirmed): when an entity-creating role is bound,
`_bind_entity_creation_role` uses the interpolated recipe as the name if it
is free, and otherwise appends ` (k)` with the smallest `k ≥ 1` making the
name unique; the new entity is registered in the domain under its type. -/
theorem entity_creation_fresh_name_smallest_suffix
    (domain : Domain) (role : Role) (b : Bindings) (base : String) (e : Entity) (d2 : Domain)
    (hb : interpolate (role.entityNameRecipe.getD "") b = some base)
    (h : bindEntityCreationRole domain role b = some (e, d2)) :
    e.name ∉ domainEntityNames domain ∧
    (base ∉ domainEntityNames domain → e.name = base) ∧
    (base ∈ domainEntityNames domain →
      ∃ k, 1 ≤ k ∧ e.name = base ++ " (" ++ Nat.repr k ++ ")" ∧
        ∀ j, 1 ≤ j → j < k → base ++ " (" ++ Nat.repr j ++ ")" ∈ domainEntityNames domain) ∧
    e ∈ (d2.lookup role.entityType).getD [] := by
  unfold bindEntityCreationRole at h
  rw [hb] at h
  have h2 : some
      (({ name := freshName (domainEntityNames domain) base, type := role.entityType,
          attributes := [] } : Entity),
        assocAppend domain role.entityType
          { name := freshName (domainEntityNames domain) base, type := role.entityType,
            attributes := [] }) = some (e, d2) := h
  have hpair := Option.some.inj h2
  rw [Prod.mk.injEq] at hpair
  obtain ⟨he, hd⟩ := hpair
  obtain ⟨hfree, k, hval, hall⟩ := freshName_spec (domainEntityNames domain) base
  have hename : e.name = nameCandidate base k := by rw [← he]; exact hval
  refine ⟨by rw [← he]; exact hfree, ?_, ?_, ?_⟩
  · intro hbase
    cases k with
    | zero => rw [hename]; simp [nameCandidate]
    | succ k2 =>
      exfalso
      have h0 := hall 0 (by omega)
      simp [nameCandidate] at h0
      exact hbase h0
  · intro hbase
    cases k with
    | zero =>
      exfalso
      rw [hval] at hfree
      simp [nameCandidate] at hfree
      exact hfree hbase
    | succ k2 =>
      refine ⟨k2 + 1, by omega, ?_, ?_⟩
      · rw [hename]
        simp [nameCandidate]
      · intro j hj1 hjk
        have := hall j hjk
        simpa [nameCandidate, Nat.pos_iff_ne_zero.mp hj1] using this
  · rw [← hd, ← he]
    exact mem_assocAppend_self domain role.entityType _

/-- Witness for `entity_creation_fresh_name_smallest_suffix`: with
`alice Note` already present, the S3-style second creation produces the
entity named `alice Note (1)` and registers it under type `Prop`. -/
theorem entity_creation_fresh_name_witness :
    noteEntity1.name ∉ domainEntityNames domainWithNote ∧
    ("alice Note" ∉ domainEntityNames domainWithNote → noteEntity1.name = "alice Note") ∧
    ("alice Note" ∈ domainEntityNames domainWithNote →
      ∃ k, 1 ≤ k ∧ noteEntity1.name = "alice Note" ++ " (" ++ Nat.repr k ++ ")" ∧
        ∀ j, 1 ≤ j → j < k →
          "alice Note" ++ " (" ++ Nat.repr j ++ ")" ∈ domainEntityNames domainWithNote) ∧
    noteEntity1 ∈ (domainWithNote2.lookup roleNote.entityType).getD [] :=
  entity_creation_fresh_name_smallest_suffix domainWithNote roleNote [("Writer", aliceFix)]
    "alice Note" noteEntity1 domainWithNote2 rfl rfl

/-! ### C2 — response actions draw against the firing rule's probability -/

/-- Claim C2 (confirmed): in the response loop of `_fire`, once the target
rule is found, the bindings composed, and the target's preconditions hold,
the draw is compared against `rule.probability` — the probability of the
rule that just fired; the target's own probability (free in this
statement) plays no part — and on a successful draw the target rule is
fired recursively. -/
theorem response_draw_uses_firing_rule_probability
    (fuel : ℕ) (rule : Rule) (b : Bindings) (es : EngineState) (ra : ResponseAction)
    (target : Rule) (composed : Bindings)
    (hfind : es.rules.find? (fun r => r.actionName == ra.actionName) = some target)
    (hcomp : composeResponseBindings b ra.actionBindings [] = some composed)
    (htrig : triggers es.workingMemory target composed [] = some true) :
    fireGo (fuel + 2) (.responses rule b [ra]) es =
      if es.draws es.drawIdx < rule.probability then
        fireGo (fuel + 1) (.fireRule target composed) { es with drawIdx := es.drawIdx + 1 }
      else some { es with drawIdx := es.drawIdx + 1 } := by
  show (do
    let target2 ← es.rules.find? (fun r : Rule => r.actionName == ra.actionName)
    let composed2 ← composeResponseBindings b ra.actionBindings []
    let trig ← triggers es.workingMemory target2 composed2 []
    if trig then
      let d := es.draws es.drawIdx
      let es1 := { es with drawIdx := es.drawIdx + 1 }
      if d < rule.probability then do
        let es2 ← fireGo (fuel + 1) (.fireRule target2 composed2) es1
        fireGo (fuel + 1) (.responses rule b []) es2
      else fireGo (fuel + 1) (.responses rule b []) es1
    else fireGo (fuel + 1) (.responses rule b []) es) = _
  rw [hfind]
  simp only [Option.bind_eq_bind, Option.some_bind]
  rw [hcomp]
  simp only [Option.bind_eq_bind, Option.some_bind]
  rw [htrig]
  simp only [Option.bind_eq_bind, Option.some_bind, if_true]
  split
  · cases hfire : fireGo (fuel + 1) (.fireRule target composed)
        { es with drawIdx := es.drawIdx + 1 } with
    | none => simp [hfire]
    | some es2 =>
      simp only [hfire, Option.some_bind]
      show fireGo (Nat.succ fuel) (.responses rule b []) es2 = some es2
      rfl
  · show fireGo (Nat.succ fuel) (.responses rule b []) _ = _
    rfl

/-- Witness for `response_draw_uses_firing_rule_probability`: the firing
rule has probability `1` and the target `$Cheer` has probability `0`; with
a draw of `0` the response nevertheless proceeds to fire the target —
demonstrating that the target's probability is not what is consulted. -/
theorem response_draw_witness :
    fireGo 12 (.responses greetWithResponseRule bGreeter [cheerResponse]) esResponse =
      fireGo 11 (.fireRule cheerRule [("X", aliceFix)])
        { esResponse with drawIdx := 1 } := by
  have h := response_draw_uses_firing_rule_probability 10 greetWithResponseRule bGreeter
    esResponse cheerResponse cheerRule [("X", aliceFix)] rfl rfl rfl
  rw [h, if_pos (by decide)]
  rfl

/-! ### C7 — `<$$…>` markers and grammar output -/

/-- Counterexample to claim C7 as stated: in the grammar
`S -> <X @v> <@v>`, `X -> x<Y @a>`, `Y -> <Z @v>`, `Z -> z` (write
directives for `v` nested on both sides of the one for `a`), the value
written to `v` captures the literal text `<$$begin @a>`, and the final
`<@v>` reference splices it mid-string where neither the derivation loop
nor the renderer recognizes it, so `generate` terminates with the marker
text in its output. -/
theorem marker_text_can_leak_into_output :
    (generate crossingGrammar 40 "S" [] (fun _ => 0)).map
      (fun out => pyContainsSub out "<$$") = some true := by
  rfl

/-- Claim C7 (corrected, positive part): whenever the derivation loop of
`generate` exits normally, the final derivation consists solely of terminal
strings, none of which IS a `<$$…>` marker element (none even starts with
`<$$`), and the renderer additionally skips any `<$$`-prefixed element —
so the bookkeeping marker elements themselves never reach the output.
(The universal claim is false: marker TEXT captured into a state variable
by crossing write directives can appear inside an output string, see
`marker_text_can_leak_into_output`.) -/
theorem terminated_derivation_has_no_marker_elements
    (g : GGrammar) (fuel : ℕ) (gs0 gs : GenState)
    (h : gIter g fuel gs0 = some gs) :
    gIncludesRef gs.deriv = false ∧
    ∀ e ∈ gs.deriv, ∃ s, e = GElem.str s ∧ pyStartsWith s "<$$" = false := by
  induction fuel generalizing gs0 with
  | zero => simp [gIter] at h
  | succ fuel ih =>
    rw [gIter] at h
    by_cases href : gIncludesRef gs0.deriv
    · rw [if_pos href] at h
      cases hscan : gScanGo g gs0.gstate gs0.choices gs0.choiceIdx gs0.deriv [] gs0.deriv with
      | noActionable => rw [hscan] at h; cases h
      | err => rw [hscan] at h; cases h
      | next st2 d2 ci2 => rw [hscan] at h; exact ih _ h
    · rw [if_neg href] at h
      have hgs := Option.some.inj h
      subst hgs
      have href2 : gIncludesRef gs0.deriv = false := by
        simpa using href
      refine ⟨href2, ?_⟩
      intro e he
      have hall := List.any_eq_false.mp href2 e he
      cases e with
      | sym n => simp at hall
      | varRef v => simp at hall
      | symWrite n vref => simp at hall
      | str s => exact ⟨s, rfl, by simpa using hall⟩

/-- Witness for `terminated_derivation_has_no_marker_elements` on the
one-production grammar `S -> hi`. -/
theorem terminated_derivation_witness :
    gIncludesRef hiFinal.deriv = false ∧
    ∀ e ∈ hiFinal.deriv, ∃ s, e = GElem.str s ∧ pyStartsWith s "<$$" = false :=
  terminated_derivation_has_no_marker_elements hiGrammar 3 hiStart hiFinal rfl

/-! ### C10 — missing `prob:` section defaults to probability 1 -/

theorem ruleProbabilityLoop_no_prob (rp : ℚ) :
    ∀ components : List String, "prob:" ∉ components →
      ruleProbabilityLoop rp false components = Except.ok rp := by
  intro components
  induction components with
  | nil => intro _; rfl
  | cons comp rest ih =>
    intro hc
    have hcomp : comp ≠ "prob:" := fun hcp => hc (hcp ▸ List.mem_cons_self comp rest)
    have hrest : "prob:" ∉ rest := fun hm => hc (List.mem_cons_of_mem comp hm)
    rw [ruleProbabilityLoop]
    by_cases h1 : pyStrip comp = ""
    · rw [if_pos h1]; exact ih hrest
    · rw [if_neg h1, if_neg hcomp]
      by_cases h3 : comp = "roles:"
      · rw [if_pos h3]; exact ih hrest
      · rw [if_neg h3]
        by_cases h4 : comp = "preconditions:"
        · rw [if_pos h4]; exact ih hrest
        · rw [if_neg h4]
          by_cases h5 : comp = "effects:"
          · rw [if_pos h5]; exact ih hrest
          · rw [if_neg h5]
            by_cases h6 : comp = "responses:"
            · rw [if_pos h6]; exact ih hrest
            · rw [if_neg h6, if_neg (show ¬(false = true) by simp)]
              exact ih hrest

/-- Claim C10 (confirmed): a rule definition whose components contain no
`prob:` section compiles to probability `1.0` (the initializer of
`_parse_rule_definition` survives untouched), and once a rule with
probability `1` has been selected with a satisfying candidate binding, any
uniform draw in `[0, 1)` passes `draw < probability`, so the attempt
proceeds to bind the remaining roles and fire the rule. -/
theorem missing_prob_section_defaults_to_one_and_fires
    (components : List String) (fuel : ℕ) (es : EngineState) (rule : Rule) (b : Bindings)
    (pruned : List Rule)
    (hc : "prob:" ∉ components)
    (hprune : pruneRulesPool es.workingMemory es.rules = some pruned)
    (hsel : selectRuleLoop es.workingMemory es.domain pruned = some (some (rule, b)))
    (hp : rule.probability = 1)
    (hd0 : 0 ≤ es.draws es.drawIdx) (hd1 : es.draws es.drawIdx < 1) :
    ruleProbabilityOfComponents components = Except.ok 1 ∧
    attemptRuleExecution fuel es =
      (bindOptionalRoles es.workingMemory es.domain rule b).bind fun p =>
        fire fuel rule p.2 { es with drawIdx := es.drawIdx + 1, domain := p.1 } := by
  refine ⟨ruleProbabilityLoop_no_prob 1 components hc, ?_⟩
  show (do
    let pruned2 ← pruneRulesPool es.workingMemory es.rules
    match ← selectRuleLoop es.workingMemory es.domain pruned2 with
    | none => some es
    | some (rule2, b2) =>
      let d := es.draws es.drawIdx
      let es1 := { es with drawIdx := es.drawIdx + 1 }
      if d < rule2.probability then do
        let (domain2, b3) ← bindOptionalRoles es1.workingMemory es1.domain rule2 b2
        fire fuel rule2 b3 { es1 with domain := domain2 }
      else some es1) = _
  rw [hprune]
  simp only [Option.bind_eq_bind, Option.some_bind]
  rw [hsel]
  simp only [Option.bind_eq_bind, Option.some_bind]
  show (if es.draws es.drawIdx < rule.probability then _ else _) = _
  rw [hp, if_pos hd1]

/-- Witness for `missing_prob_section_defaults_to_one_and_fires`: the
S1 `$Greet` rule (whose definition components carry `roles:` and
`preconditions:` sections but no `prob:`), selected with `Greeter = alice`
and a draw of `0`. -/
theorem missing_prob_witness :
    ruleProbabilityOfComponents componentsNoProb = Except.ok 1 ∧
    attemptRuleExecution 10 esGreet =
      (bindOptionalRoles esGreet.workingMemory esGreet.domain greetRule bGreeter).bind fun p =>
        fire 10 greetRule p.2 { esGreet with drawIdx := esGreet.drawIdx + 1, domain := p.1 } :=
  missing_prob_section_defaults_to_one_and_fires componentsNoProb 10 esGreet greetRule
    bGreeter [greetRule] (by decide) rfl rfl rfl (by decide) (by decide)

end Mystery
